import Mathlib

/-!
Verification of `optimal_topic_calculator.py` (LuminaCite).

The program computes candidate LDA topic counts for a corpus of
`num_documents` documents via a bank of closed-form heuristics
(`calculate_optimal_topics`), derives per-method statistics
(`analyze_topic_distribution`), filters and ranks the candidates
(`recommend_optimal_range`), and a driver (`main`) prints the report,
with a fallback branch and a final-recommendation chain.

The embedding below mirrors the Python source.  Python `int(x)` is
truncation toward zero; every argument it is applied to in the source is
nonnegative on the domain where the bank is evaluated (N ≥ 1), so it is
modelled as the floor `⌊·⌋`.  Python float arithmetic is idealised as
exact real (for the transcendental formulas) or rational (for the
divisions and the rounding helper) arithmetic.  Python's `round` is
round-half-to-even, modelled by `pyRound`.  Uncaught Python exceptions
are modelled with `Except`.
-/

namespace LuminaCite

/-- Python exception kinds arising in this program.  `valueError` models the
math-domain `ValueError` raised by `math.sqrt` / `math.log10` on arguments
outside their domain; `zeroDivisionError` models `ZeroDivisionError`.
`invalidInput` is the error name that the specification document uses for
rejecting `numDocuments ≤ 0`; the source never produces it — it is included
only so that statements about it can be written down. -/
inductive PyErr
  | valueError
  | zeroDivisionError
  | invalidInput
deriving DecidableEq

/-- `results['sqrt_rule'] = int(math.sqrt(num_documents))`. -/
noncomputable def sqrt_rule (n : ℕ) : ℤ := ⌊Real.sqrt n⌋

/-- `results['log_rule'] = int(math.log10(num_documents) * 10)`. -/
noncomputable def log_rule (n : ℕ) : ℤ := ⌊Real.logb 10 n * 10⌋

/-- `int(num_documents / d)` — the fixed-ratio and large-corpus formulas. -/
def ratioRule (d : ℕ) (n : ℕ) : ℤ := ⌊(n : ℚ) / (d : ℚ)⌋

/-- `results['ln_rule'] = int(math.log(num_documents))`. -/
noncomputable def ln_rule (n : ℕ) : ℤ := ⌊Real.log n⌋

/-- `results['power_rule'] = int(num_documents ** 0.3)`. -/
noncomputable def power_rule (n : ℕ) : ℤ := ⌊(n : ℝ) ^ (0.3 : ℝ)⌋

/-- `int(k * math.log(num_documents))` — the Griffiths & Steyvers family. -/
noncomputable def griffiths (k : ℕ) (n : ℕ) : ℤ := ⌊(k : ℝ) * Real.log n⌋

/-- `results['blei_conservative'] = min(100, int(math.sqrt(num_documents) * 0.5))`. -/
noncomputable def blei_conservative (n : ℕ) : ℤ := min 100 ⌊Real.sqrt n * 0.5⌋

/-- `balanced = int(math.sqrt(num_documents) * 1.5)` before clamping. -/
noncomputable def balanced_raw (n : ℕ) : ℤ := ⌊Real.sqrt n * 1.5⌋

/-- `results['balanced'] = min(500, max(50, balanced))`. -/
noncomputable def balanced (n : ℕ) : ℤ := min 500 (max 50 (balanced_raw n))

/-- The dictionary built by `calculate_optimal_topics` for `n ≥ 1`, as an
association list in the source's insertion order.  The three
`large_corpus_*` entries are inserted only when `num_documents >= 100000`,
between `blei_conservative` and `balanced`. -/
noncomputable def topicBank (n : ℕ) : List (String × ℤ) :=
  [("sqrt_rule", sqrt_rule n),
   ("log_rule", log_rule n),
   ("ratio_50", ratioRule 50 n),
   ("ratio_100", ratioRule 100 n),
   ("ratio_200", ratioRule 200 n),
   ("ratio_500", ratioRule 500 n),
   ("ln_rule", ln_rule n),
   ("power_rule", power_rule n),
   ("griffiths_k1", griffiths 1 n),
   ("griffiths_k5", griffiths 5 n),
   ("griffiths_k10", griffiths 10 n),
   ("blei_conservative", blei_conservative n)]
  ++ (if 100000 ≤ n then
       [("large_corpus_low", ratioRule 1000 n),
        ("large_corpus_mid", ratioRule 750 n),
        ("large_corpus_high", ratioRule 500 n)]
      else [])
  ++ [("balanced", balanced n)]

/-- `calculate_optimal_topics` on an arbitrary integer input.  There is no
input validation in the source: for a negative input the very first
formula, `math.sqrt`, raises a math-domain `ValueError`; for input `0`
`math.sqrt(0)` succeeds (storing `sqrt_rule = 0`) and the second formula,
`math.log10(0)`, raises the math-domain `ValueError`.  For `n ≥ 1` every
formula is defined and the full dictionary is returned. -/
noncomputable def calculate_optimal_topics (n : ℤ) : Except PyErr (List (String × ℤ)) :=
  if n < 0 then .error .valueError
  else if n = 0 then .error .valueError
  else .ok (topicBank n.toNat)

/-- Python's `round` to the nearest integer: round-half-to-even on exact
rationals. -/
def pyRound (q : ℚ) : ℤ :=
  if q - ⌊q⌋ = 1 / 2 then (if 2 ∣ ⌊q⌋ then ⌊q⌋ else ⌊q⌋ + 1) else round q

/-- Python's `round(q, 1)`. -/
def round1 (q : ℚ) : ℚ := (pyRound (q * 10) : ℚ) / 10

/-- Python's `round(q, 2)`. -/
def round2 (q : ℚ) : ℚ := (pyRound (q * 100) : ℚ) / 100

/-- The per-method statistics dictionary built by
`analyze_topic_distribution`.  `docs_per_topic` stores the quotient rounded
to one decimal place, `topics_per_1k_docs` the density rounded to two
places; `granularity` is computed from the unrounded local variable
`docs_per_topic`. -/
structure Stats where
  topics : ℤ
  docs_per_topic : ℚ
  topics_per_1k_docs : ℚ
  interpretability : String
  granularity : String
deriving DecidableEq

/-- One iteration of the loop body of `analyze_topic_distribution`:
`docs_per_topic = num_documents / topics` raises `ZeroDivisionError` when
`topics == 0`; `topics / (num_documents / 1000)` raises it when
`num_documents == 0`. -/
def analyzeEntry (numDocuments : ℕ) (topics : ℤ) : Except PyErr Stats :=
  if topics = 0 then .error .zeroDivisionError
  else if (numDocuments : ℚ) / 1000 = 0 then .error .zeroDivisionError
  else
    .ok { topics := topics
          docs_per_topic := round1 ((numDocuments : ℚ) / (topics : ℚ))
          topics_per_1k_docs := round2 ((topics : ℚ) / ((numDocuments : ℚ) / 1000))
          interpretability :=
            if topics ≤ 100 then "High" else if topics ≤ 300 then "Medium" else "Low"
          granularity :=
            if (numDocuments : ℚ) / (topics : ℚ) ≤ 200 then "High"
            else if (numDocuments : ℚ) / (topics : ℚ) ≤ 500 then "Medium" else "Low" }

/-- `analyze_topic_distribution(num_documents, topic_counts)`: the loop over
the mapping, aborting at the first entry that raises. -/
def analyze_topic_distribution (numDocuments : ℕ) :
    List (String × ℤ) → Except PyErr (List (String × Stats))
  | [] => .ok []
  | p :: rest =>
    match analyzeEntry numDocuments p.2 with
    | .error e => .error e
    | .ok s =>
      match analyze_topic_distribution numDocuments rest with
      | .error e => .error e
      | .ok tail => .ok ((p.1, s) :: tail)

/-- The sort comparator of `recommend_optimal_range`:
`key=lambda x: abs(x[2] - 400)` on the `(method, topics, docs_per_topic)`
triples, where `x[2]` is the `docs_per_topic` value stored in the analysis
dictionary. -/
def distLe (a b : String × ℤ × ℚ) : Bool :=
  decide (|a.2.2 - 400| ≤ |b.2.2 - 400|)

/-- The `good_candidates` list of `recommend_optimal_range` before sorting:
the filter `50 <= topics <= 400 and 200 <= docs_per_topic <= 1000` applied
in the mapping's iteration order, where both tested values are the ones
stored in the analysis dictionary. -/
def goodCandidates (analysis : List (String × Stats)) : List (String × ℤ × ℚ) :=
  (analysis.filter fun p =>
      decide (50 ≤ p.2.topics) && decide (p.2.topics ≤ 400) &&
      decide (200 ≤ p.2.docs_per_topic) && decide (p.2.docs_per_topic ≤ 1000)).map
    fun p => (p.1, p.2.topics, p.2.docs_per_topic)

/-- `recommend_optimal_range(results, analysis)`: filter, then Python's
stable in-place sort by `abs(x[2] - 400)`. -/
def recommend_optimal_range (analysis : List (String × Stats)) : List (String × ℤ × ℚ) :=
  (goodCandidates analysis).mergeSort distLe

/-- Modelled from the spec: "internal ranking uses full precision" — the
variant Recommender the specification describes, whose acceptance-window
test and sort key use the exact quotient `numDocuments / topicCount`
instead of the stored one-decimal rounding.  It exists only to be compared
with `recommend_optimal_range`, which is what the source implements. -/
def specFullPrecisionRecommend (numDocuments : ℕ) (analysis : List (String × Stats)) :
    List (String × ℤ × ℚ) :=
  ((analysis.filter fun p =>
      decide (50 ≤ p.2.topics) && decide (p.2.topics ≤ 400) &&
      decide (200 ≤ (numDocuments : ℚ) / (p.2.topics : ℚ)) &&
      decide ((numDocuments : ℚ) / (p.2.topics : ℚ) ≤ 1000)).map
    fun p => (p.1, p.2.topics, (numDocuments : ℚ) / (p.2.topics : ℚ))).mergeSort distLe

/-- The sort comparator of the driver's fallback branch:
`key=lambda x: abs(x[1]['docs_per_topic'] - 400)` over the full analysis
items. -/
def statsDistLe (a b : String × Stats) : Bool :=
  decide (|a.2.docs_per_topic - 400| ≤ |b.2.docs_per_topic - 400|)

/-- `sorted(analysis.items(), key=...)[:3]` — the fallback list printed by
the driver when no candidate passed the filter. -/
def fallbackMethods (analysis : List (String × Stats)) : List (String × Stats) :=
  (analysis.mergeSort statsDistLe).take 3

/-- The recommendation section of `main`: if `recommendations` is non-empty
it prints the top five filtered candidates (`recommendations[:5]`),
otherwise it prints the fallback list over the entire unfiltered analysis. -/
def recommendationSection (analysis : List (String × Stats))
    (recommendations : List (String × ℤ × ℚ)) :
    Sum (List (String × ℤ × ℚ)) (List (String × Stats)) :=
  if recommendations.isEmpty then .inr (fallbackMethods analysis)
  else .inl (recommendations.take 5)

/-- The final-recommendation chain of `main`: the best filtered candidate's
topic count if one exists; otherwise `topic_results['ratio_100']`, replaced
by `min(300, topic_results['balanced'])` when it exceeds 400.  Dictionary
lookups are modelled with `List.lookup`; `none` would correspond to a
`KeyError` (impossible on the bank the driver builds, whose keys are always
present). -/
def final_recommendation (topicResults : List (String × ℤ))
    (recommendations : List (String × ℤ × ℚ)) : Option ℤ :=
  match recommendations with
  | r :: _ => some r.2.1
  | [] =>
    match topicResults.lookup "ratio_100" with
    | none => none
    | some f =>
      if f > 400 then
        match topicResults.lookup "balanced" with
        | none => none
        | some b => some (min 300 b)
      else some f

/-! ### Helper lemmas -/

/-- Round-half-to-even differs from the true value by at most one half. -/
lemma abs_pyRound_sub (q : ℚ) : |(pyRound q : ℚ) - q| ≤ 1 / 2 := by
  unfold pyRound
  split_ifs with h h2
  · rw [abs_sub_comm, abs_of_nonneg (by linarith [Int.floor_le q])]
    linarith
  · rw [show ((((⌊q⌋ + 1) : ℤ) : ℚ) - q) = 1 / 2 by push_cast; linarith,
      abs_of_pos (by norm_num : (0 : ℚ) < 1 / 2)]
  · rw [abs_sub_comm]
    exact abs_sub_round q

/-- Rounding to one decimal place moves a rational by at most `1/20`. -/
lemma abs_round1_sub (q : ℚ) : |round1 q - q| ≤ 1 / 20 := by
  unfold round1
  have h := abs_pyRound_sub (q * 10)
  have : (pyRound (q * 10) : ℚ) / 10 - q = ((pyRound (q * 10) : ℚ) - q * 10) / 10 := by ring
  rw [this, abs_div]
  rw [show |(10 : ℚ)| = 10 by norm_num]
  linarith [h]

/-- Inversion of a successful `analyzeEntry`: the stored fields in terms of
the inputs. -/
lemma analyzeEntry_ok {N : ℕ} {t : ℤ} {s : Stats}
    (h : analyzeEntry N t = .ok s) :
    t ≠ 0 ∧ s.topics = t ∧ s.docs_per_topic = round1 ((N : ℚ) / (t : ℚ)) := by
  unfold analyzeEntry at h
  by_cases h1 : t = 0
  · rw [if_pos h1] at h
    exact absurd h (by simp)
  · rw [if_neg h1] at h
    by_cases h2 : (N : ℚ) / 1000 = 0
    · rw [if_pos h2] at h
      exact absurd h (by simp)
    · rw [if_neg h2] at h
      cases h
      exact ⟨h1, rfl, rfl⟩

/-- `analyzeEntry` on a zero topic count raises `ZeroDivisionError`. -/
lemma analyzeEntry_zero (N : ℕ) : analyzeEntry N 0 = .error .zeroDivisionError := by
  simp [analyzeEntry]

/-- The denominator `num_documents / 1000` is nonzero for a nonempty corpus. -/
lemma thousandth_ne_zero {N : ℕ} (hN : 1 ≤ N) : ((N : ℚ) / 1000) ≠ 0 := by
  apply ne_of_gt
  apply div_pos _ (by norm_num)
  exact_mod_cast Nat.lt_of_lt_of_le Nat.zero_lt_one hN

/-- `analyzeEntry` succeeds whenever the topic count is nonzero and the
corpus is nonempty, with the statistics dictionary of the source. -/
lemma analyzeEntry_ok_of {N : ℕ} (hN : 1 ≤ N) {t : ℤ} (ht : t ≠ 0) :
    analyzeEntry N t = .ok
      { topics := t
        docs_per_topic := round1 ((N : ℚ) / (t : ℚ))
        topics_per_1k_docs := round2 ((t : ℚ) / ((N : ℚ) / 1000))
        interpretability := if t ≤ 100 then "High" else if t ≤ 300 then "Medium" else "Low"
        granularity := if (N : ℚ) / (t : ℚ) ≤ 200 then "High"
          else if (N : ℚ) / (t : ℚ) ≤ 500 then "Medium" else "Low" } := by
  unfold analyzeEntry
  rw [if_neg ht, if_neg (thousandth_ne_zero hN)]

/-- Every entry of a successful analysis comes from a successful
`analyzeEntry` on some entry of the input mapping. -/
lemma analyze_ok_mem {N : ℕ} {tc : List (String × ℤ)} {a : List (String × Stats)}
    (h : analyze_topic_distribution N tc = .ok a) {m : String} {s : Stats}
    (hm : (m, s) ∈ a) : ∃ t, (m, t) ∈ tc ∧ analyzeEntry N t = .ok s := by
  induction tc generalizing a with
  | nil =>
    unfold analyze_topic_distribution at h
    cases h
    simp at hm
  | cons p rest ih =>
    unfold analyze_topic_distribution at h
    rcases he : analyzeEntry N p.2 with e | s0
    · rw [he] at h; exact absurd h (by simp)
    · rw [he] at h
      rcases hr : analyze_topic_distribution N rest with e | tail
      · rw [hr] at h; exact absurd h (by simp)
      · rw [hr] at h
        cases h
        rcases List.mem_cons.1 hm with h0 | h0
        · have hm1 : m = p.1 := congrArg Prod.fst h0
          have hm2 : s = s0 := congrArg Prod.snd h0
          refine ⟨p.2, ?_, ?_⟩
          · rw [hm1, Prod.mk.eta]
            exact List.mem_cons_self _ _
          · rw [hm2]
            exact he
        · obtain ⟨t, ht1, ht2⟩ := ih hr h0
          exact ⟨t, List.mem_cons_of_mem _ ht1, ht2⟩

/-- On a nonempty corpus the analysis succeeds when no topic count is
zero. -/
lemma analyze_ok_of {N : ℕ} (hN : 1 ≤ N) (tc : List (String × ℤ))
    (h : ∀ p ∈ tc, p.2 ≠ 0) : ∃ a, analyze_topic_distribution N tc = .ok a := by
  induction tc with
  | nil => exact ⟨[], rfl⟩
  | cons p rest ih =>
    obtain ⟨tail, htail⟩ := ih (fun q hq => h q (List.mem_cons_of_mem _ hq))
    have hentry := analyzeEntry_ok_of hN (h p (List.mem_cons_self _ _))
    exact ⟨_, by unfold analyze_topic_distribution; rw [hentry, htail]⟩

/-- On a nonempty corpus the analysis raises `ZeroDivisionError` exactly
when some entry of the mapping has topic count zero. -/
lemma analyze_error_iff {N : ℕ} (hN : 1 ≤ N) (tc : List (String × ℤ)) :
    analyze_topic_distribution N tc = .error .zeroDivisionError ↔
      ∃ p ∈ tc, p.2 = 0 := by
  induction tc with
  | nil =>
    constructor
    · intro h
      exact absurd h (by simp [analyze_topic_distribution])
    · rintro ⟨p, hp, -⟩
      simp at hp
  | cons p rest ih =>
    by_cases hp : p.2 = 0
    · constructor
      · intro _
        exact ⟨p, List.mem_cons_self _ _, hp⟩
      · intro _
        unfold analyze_topic_distribution
        rw [hp, analyzeEntry_zero]
    · constructor
      · intro h
        unfold analyze_topic_distribution at h
        rw [analyzeEntry_ok_of hN hp] at h
        rcases hr : analyze_topic_distribution N rest with e | tail
        · rw [hr] at h
          cases h
          obtain ⟨q, hq, hq0⟩ := ih.1 hr
          exact ⟨q, List.mem_cons_of_mem _ hq, hq0⟩
        · rw [hr] at h
          exact absurd h (by simp)
      · rintro ⟨q, hq, hq0⟩
        rcases List.mem_cons.1 hq with rfl | hq1
        · exact absurd hq0 hp
        · unfold analyze_topic_distribution
          rw [analyzeEntry_ok_of hN hp, ih.2 ⟨q, hq1, hq0⟩]

/-- A member of the Recommender's output is a member of the filtered
candidate list, and conversely. -/
lemma mem_recommend {a : List (String × Stats)} {x : String × ℤ × ℚ} :
    x ∈ recommend_optimal_range a ↔ x ∈ goodCandidates a :=
  (List.mergeSort_perm (goodCandidates a) distLe).mem_iff

/-- Characterisation of the filtered candidate list. -/
lemma mem_goodCandidates {a : List (String × Stats)} {x : String × ℤ × ℚ} :
    x ∈ goodCandidates a ↔
      ∃ p ∈ a, x = (p.1, p.2.topics, p.2.docs_per_topic) ∧
        50 ≤ p.2.topics ∧ p.2.topics ≤ 400 ∧
        200 ≤ p.2.docs_per_topic ∧ p.2.docs_per_topic ≤ 1000 := by
  unfold goodCandidates
  simp only [List.mem_map, List.mem_filter, Bool.and_eq_true, decide_eq_true_eq]
  constructor
  · rintro ⟨p, ⟨hp, ⟨⟨h1, h2⟩, h3⟩, h4⟩, rfl⟩
    exact ⟨p, hp, rfl, h1, h2, h3, h4⟩
  · rintro ⟨p, hp, rfl, h1, h2, h3, h4⟩
    exact ⟨p, ⟨hp, ⟨⟨h1, h2⟩, h3⟩, h4⟩, rfl⟩

lemma distLe_trans (a b c : String × ℤ × ℚ) :
    distLe a b = true → distLe b c = true → distLe a c = true := by
  simp only [distLe, decide_eq_true_eq]
  exact le_trans

lemma distLe_total (a b : String × ℤ × ℚ) : (distLe a b || distLe b a) = true := by
  simp only [distLe, Bool.or_eq_true, decide_eq_true_eq]
  exact le_total _ _

/-- The Recommender's output is sorted by non-decreasing distance of the
stored docs-per-topic value from 400. -/
lemma recommend_sorted (a : List (String × Stats)) :
    (recommend_optimal_range a).Pairwise
      (fun x y => |x.2.2 - 400| ≤ |y.2.2 - 400|) := by
  have h := List.sorted_mergeSort distLe_trans distLe_total (goodCandidates a)
  exact h.imp (by simp only [distLe, decide_eq_true_eq]; exact fun h => h)

/-- Stability of the Recommender: the candidates at any fixed distance from
400 occur in the output in their original relative order (they form a
sublist equal to the filter of the unsorted candidate list). -/
lemma recommend_stable (a : List (String × Stats)) (k : ℚ) :
    ((goodCandidates a).filter fun x => decide (|x.2.2 - 400| = k)).Sublist
      (recommend_optimal_range a) := by
  apply List.sublist_mergeSort distLe_trans distLe_total
  · apply List.pairwise_of_forall_mem_list
    intro x hx y hy
    have hxk := List.of_mem_filter hx
    have hyk := List.of_mem_filter hy
    simp only [decide_eq_true_eq] at hxk hyk
    simp only [distLe, decide_eq_true_eq, hxk, hyk, le_refl]
  · exact List.filter_sublist _

lemma statsDistLe_trans (a b c : String × Stats) :
    statsDistLe a b = true → statsDistLe b c = true → statsDistLe a c = true := by
  simp only [statsDistLe, decide_eq_true_eq]
  exact le_trans

lemma statsDistLe_total (a b : String × Stats) :
    (statsDistLe a b || statsDistLe b a) = true := by
  simp only [statsDistLe, Bool.or_eq_true, decide_eq_true_eq]
  exact le_total _ _

/-! ### Concrete values of the transcendental formulas at N = 103576 -/

lemma sqrt_103576_lb : (964 / 3 : ℝ) ≤ Real.sqrt 103576 := by
  rw [Real.le_sqrt (by norm_num) (by norm_num)]
  norm_num

lemma sqrt_103576_ub : Real.sqrt 103576 < 322 := by
  rw [Real.sqrt_lt' (by norm_num)]
  norm_num

lemma sqrt_rule_103576 : sqrt_rule 103576 = 321 := by
  unfold sqrt_rule
  rw [Int.floor_eq_iff]
  constructor
  · push_cast
    calc (321 : ℝ) ≤ 964 / 3 := by norm_num
      _ ≤ Real.sqrt 103576 := by exact_mod_cast sqrt_103576_lb
  · push_cast
    calc Real.sqrt (103576 : ℕ) < 322 := by exact_mod_cast sqrt_103576_ub
      _ = (321 : ℝ) + 1 := by norm_num

lemma balanced_103576 : balanced 103576 = 482 := by
  have hraw : balanced_raw 103576 = 482 := by
    unfold balanced_raw
    rw [Int.floor_eq_iff]
    have lb := sqrt_103576_lb
    have ub := sqrt_103576_ub
    constructor
    · push_cast
      nlinarith [lb]
    · push_cast
      nlinarith [ub]
  unfold balanced
  rw [hraw]
  norm_num

lemma blei_conservative_103576 : blei_conservative 103576 = 100 := by
  unfold blei_conservative
  have h : (100 : ℤ) ≤ ⌊Real.sqrt (103576 : ℕ) * 0.5⌋ := by
    rw [Int.le_floor]
    push_cast
    nlinarith [sqrt_103576_lb]
  exact min_eq_left h

lemma ratio_100_103576 : ratioRule 100 103576 = 1035 := by
  unfold ratioRule
  rw [Int.floor_eq_iff]
  norm_num

lemma exp_one_lb : (2.718 : ℝ) ≤ Real.exp 1 :=
  le_trans (by norm_num) (le_of_lt Real.exp_one_gt_d9)

lemma exp_one_ub : Real.exp 1 ≤ 2.719 :=
  le_trans (le_of_lt Real.exp_one_lt_d9) (by norm_num)

lemma log_103576_lb : (11.5 : ℝ) ≤ Real.log 103576 := by
  rw [Real.le_log_iff_exp_le (by norm_num : (0 : ℝ) < 103576)]
  have h2 : Real.exp 11.5 ^ 2 ≤ (103576 : ℝ) ^ 2 := by
    calc Real.exp 11.5 ^ 2 = Real.exp ((2 : ℕ) * 11.5) := (Real.exp_nat_mul 11.5 2).symm
      _ = Real.exp ((23 : ℕ) * 1) := by norm_num
      _ = Real.exp 1 ^ 23 := Real.exp_nat_mul 1 23
      _ ≤ (2.719 : ℝ) ^ 23 := pow_le_pow_left₀ (le_of_lt (Real.exp_pos 1)) exp_one_ub 23
      _ ≤ (103576 : ℝ) ^ 2 := by norm_num
  exact le_of_pow_le_pow_left₀ two_ne_zero (by norm_num) h2

lemma log_103576_ub : Real.log 103576 < 11.6 := by
  rw [Real.log_lt_iff_lt_exp (by norm_num : (0 : ℝ) < 103576)]
  have h5 : (103576 : ℝ) ^ 5 < Real.exp 11.6 ^ 5 := by
    calc (103576 : ℝ) ^ 5 < (2.718 : ℝ) ^ 58 := by norm_num
      _ ≤ Real.exp 1 ^ 58 := pow_le_pow_left₀ (by norm_num) exp_one_lb 58
      _ = Real.exp ((58 : ℕ) * 1) := (Real.exp_nat_mul 1 58).symm
      _ = Real.exp ((5 : ℕ) * 11.6) := by norm_num
      _ = Real.exp 11.6 ^ 5 := Real.exp_nat_mul 11.6 5
  exact lt_of_pow_lt_pow_left₀ 5 (le_of_lt (Real.exp_pos _)) h5

lemma griffiths_k10_103576 : griffiths 10 103576 = 115 := by
  unfold griffiths
  rw [Int.floor_eq_iff]
  have lb := log_103576_lb
  have ub := log_103576_ub
  constructor
  · push_cast
    nlinarith [lb]
  · push_cast
    nlinarith [ub]

/-! ### Concrete evaluations used by counterexamples and witnesses -/

/-- The analysis record for method count 400 on a corpus of 79984 documents:
the exact quotient is 199.96, stored rounded to 200.0. -/
def roundedStats : Stats :=
  { topics := 400, docs_per_topic := 200, topics_per_1k_docs := 5,
    interpretability := "Low", granularity := "High" }

lemma analyze_79984 :
    analyze_topic_distribution 79984 [("m", 400)] = .ok [("m", roundedStats)] := by
  simp only [analyze_topic_distribution, analyzeEntry]
  norm_num [roundedStats, round1, round2, pyRound, round_eq]

lemma recommend_roundedStats :
    recommend_optimal_range [("m", roundedStats)] = [("m", 400, 200)] := by
  have hp : (decide ((50 : ℤ) ≤ 400) && decide ((400 : ℤ) ≤ 400) &&
      decide ((200 : ℚ) ≤ 200) && decide ((200 : ℚ) ≤ 1000)) = true := by norm_num
  simp only [recommend_optimal_range, goodCandidates, roundedStats, List.filter_cons, hp,
    if_true, List.filter_nil, List.map_cons, List.map_nil, List.mergeSort_singleton]

lemma specRecommend_roundedStats :
    specFullPrecisionRecommend 79984 [("m", roundedStats)] = [] := by
  simp only [specFullPrecisionRecommend, roundedStats]
  norm_num

/-- A sample analysis record (the `sqrt_rule` row of the driver's run). -/
def demoStats : Stats :=
  { topics := 321, docs_per_topic := 3227 / 10, topics_per_1k_docs := 31 / 10,
    interpretability := "Low", granularity := "Medium" }

lemma recommend_demoStats :
    recommend_optimal_range [("sqrt_rule", demoStats)] = [("sqrt_rule", 321, 3227 / 10)] := by
  have hp : (decide ((50 : ℤ) ≤ 321) && decide ((321 : ℤ) ≤ 400) &&
      decide ((200 : ℚ) ≤ 3227 / 10) && decide ((3227 / 10 : ℚ) ≤ 1000)) = true := by norm_num
  simp only [recommend_optimal_range, goodCandidates, demoStats, List.filter_cons, hp,
    if_true, List.filter_nil, List.map_cons, List.map_nil, List.mergeSort_singleton]

/-- The analysis record for method count 3 on a corpus of 1000 documents. -/
def thirdStats : Stats :=
  { topics := 3, docs_per_topic := 3333 / 10, topics_per_1k_docs := 3,
    interpretability := "High", granularity := "Medium" }

lemma analyze_1000 :
    analyze_topic_distribution 1000 [("m", 3)] = .ok [("m", thirdStats)] := by
  simp only [analyze_topic_distribution, analyzeEntry]
  norm_num [thirdStats, round1, round2, pyRound, round_eq]

/-! ### Per-formula nonnegativity -/

lemma sqrt_rule_nonneg (n : ℕ) : 0 ≤ sqrt_rule n :=
  Int.floor_nonneg.2 (Real.sqrt_nonneg _)

lemma log_rule_nonneg {n : ℕ} (h : 1 ≤ n) : 0 ≤ log_rule n := by
  apply Int.floor_nonneg.2
  apply mul_nonneg _ (by norm_num)
  exact Real.logb_nonneg (by norm_num) (by exact_mod_cast h)

lemma ratioRule_nonneg (d n : ℕ) : 0 ≤ ratioRule d n :=
  Int.floor_nonneg.2 (div_nonneg (Nat.cast_nonneg n) (Nat.cast_nonneg d))

lemma ln_rule_nonneg {n : ℕ} (h : 1 ≤ n) : 0 ≤ ln_rule n :=
  Int.floor_nonneg.2 (Real.log_nonneg (by exact_mod_cast h))

lemma power_rule_nonneg (n : ℕ) : 0 ≤ power_rule n :=
  Int.floor_nonneg.2 (Real.rpow_nonneg (Nat.cast_nonneg n) _)

lemma griffiths_nonneg (k : ℕ) {n : ℕ} (h : 1 ≤ n) : 0 ≤ griffiths k n := by
  apply Int.floor_nonneg.2
  exact mul_nonneg (Nat.cast_nonneg k) (Real.log_nonneg (by exact_mod_cast h))

lemma blei_conservative_nonneg (n : ℕ) : 0 ≤ blei_conservative n := by
  apply le_min (by norm_num)
  exact Int.floor_nonneg.2 (mul_nonneg (Real.sqrt_nonneg _) (by norm_num))

lemma balanced_nonneg (n : ℕ) : 0 ≤ balanced n := by
  apply le_min (by norm_num)
  exact le_trans (by norm_num) (le_max_left 50 _)

/-! ### The claims -/

/-- C1 (amended): for input N = 103576 the Formula Bank returns
`sqrt_rule` = 321, `ratio_100` = 1035, `griffiths_k10` = 115,
`blei_conservative` = 100 and `balanced` = 482 (the claimed 465 is wrong;
`int(sqrt(103576) * 1.5) = 482` already lies inside the clamp [50, 500]). -/
theorem C1_formula_bank_103576 :
    (topicBank 103576).lookup "sqrt_rule" = some 321 ∧
    (topicBank 103576).lookup "ratio_100" = some 1035 ∧
    (topicBank 103576).lookup "griffiths_k10" = some 115 ∧
    (topicBank 103576).lookup "blei_conservative" = some 100 ∧
    (topicBank 103576).lookup "balanced" = some 482 := by
  refine ⟨?_, ?_, ?_, ?_, ?_⟩ <;>
    simp [topicBank, List.lookup, (by norm_num : 100000 ≤ 103576), sqrt_rule_103576,
      ratio_100_103576, griffiths_k10_103576, blei_conservative_103576, balanced_103576]

/-- C1 (counterexample): the Formula Bank's `balanced` entry at N = 103576
is 482, not the 465 stated in the claim. -/
theorem C1_balanced_counterexample :
    (topicBank 103576).lookup "balanced" = some 482 ∧
    (topicBank 103576).lookup "balanced" ≠ some 465 := by
  have h : (topicBank 103576).lookup "balanced" = some 482 := by
    simp [topicBank, List.lookup, (by norm_num : 100000 ≤ 103576), balanced_103576]
  exact ⟨h, by rw [h]; simp⟩

/-- C2 (amended): the Recommender's acceptance-window test, its sort key
and the returned docs-per-topic component all use the value stored by the
Analyzer, i.e. the quotient `numDocuments / topicCount` rounded to one
decimal place; full precision is not recovered inside the Recommender. -/
theorem C2_recommender_uses_rounded (N : ℕ) (tc : List (String × ℤ))
    (a : List (String × Stats)) (h : analyze_topic_distribution N tc = .ok a)
    (m : String) (t : ℤ) (d : ℚ)
    (hmem : (m, t, d) ∈ recommend_optimal_range a) :
    d = round1 ((N : ℚ) / (t : ℚ)) ∧ 200 ≤ d ∧ d ≤ 1000 := by
  obtain ⟨p, hp, heq, h1, h2, h3, h4⟩ := mem_goodCandidates.1 (mem_recommend.1 hmem)
  have hm1 : m = p.1 := congrArg Prod.fst heq
  have ht1 : t = p.2.topics := congrArg (fun x => x.2.1) heq
  have hd1 : d = p.2.docs_per_topic := congrArg (fun x => x.2.2) heq
  have hp2 : (m, p.2) ∈ a := by rw [hm1, Prod.mk.eta]; exact hp
  obtain ⟨t0, htc, hok⟩ := analyze_ok_mem h hp2
  obtain ⟨ht0, hst, hsd⟩ := analyzeEntry_ok hok
  have htt : t = t0 := by rw [ht1, hst]
  refine ⟨?_, hd1 ▸ h3, hd1 ▸ h4⟩
  rw [hd1, hsd, htt]

/-- C2 (witness): the amended statement applied to the concrete corpus
N = 79984 with the single method `m` at 400 topics. -/
theorem C2_recommender_uses_rounded_witness :
    (200 : ℚ) = round1 ((79984 : ℕ) / ((400 : ℤ) : ℚ)) ∧
    (200 : ℚ) ≤ 200 ∧ (200 : ℚ) ≤ 1000 :=
  C2_recommender_uses_rounded 79984 [("m", 400)] [("m", roundedStats)] analyze_79984
    "m" 400 200 (by rw [recommend_roundedStats]; exact List.mem_singleton.2 rfl)

/-- C2 (counterexample): at N = 79984 with topic count 400 the exact
quotient is 199.96 < 200, so a full-precision acceptance window would
reject the candidate, yet the source's Recommender accepts and returns it
with the stored rounded value 200.0: filtering and ranking use the rounded
value, not full precision. -/
theorem C2_full_precision_counterexample :
    analyze_topic_distribution 79984 [("m", 400)] = .ok [("m", roundedStats)] ∧
    recommend_optimal_range [("m", roundedStats)] = [("m", 400, 200)] ∧
    specFullPrecisionRecommend 79984 [("m", roundedStats)] = [] ∧
    (79984 : ℚ) / 400 < 200 :=
  ⟨analyze_79984, recommend_roundedStats, specRecommend_roundedStats, by norm_num⟩

/-- C3: every candidate returned by the Recommender satisfies
`50 ≤ topicCount ≤ 400` and `200 ≤ docsPerTopic ≤ 1000`; the returned list
is sorted by non-decreasing `|docsPerTopic − 400|`; and candidates at equal
distance keep the insertion order of the input mapping (for each distance
`k`, the distance-`k` candidates of the unsorted filtered list form, in
their original order, a sublist of the output).  Stated for an arbitrary
analysis mapping, hence in particular for every one produced from a corpus
size N ≥ 1. -/
theorem C3_recommender_contract (a : List (String × Stats)) :
    (∀ m t d, (m, t, d) ∈ recommend_optimal_range a →
        50 ≤ t ∧ t ≤ 400 ∧ (200 : ℚ) ≤ d ∧ d ≤ 1000) ∧
    (recommend_optimal_range a).Pairwise
      (fun x y => |x.2.2 - 400| ≤ |y.2.2 - 400|) ∧
    (∀ k : ℚ, ((goodCandidates a).filter fun x => decide (|x.2.2 - 400| = k)).Sublist
        (recommend_optimal_range a)) := by
  refine ⟨?_, recommend_sorted a, recommend_stable a⟩
  intro m t d hmem
  obtain ⟨p, hp, heq, h1, h2, h3, h4⟩ := mem_goodCandidates.1 (mem_recommend.1 hmem)
  have ht1 : t = p.2.topics := congrArg (fun x => x.2.1) heq
  have hd1 : d = p.2.docs_per_topic := congrArg (fun x => x.2.2) heq
  exact ⟨ht1 ▸ h1, ht1 ▸ h2, hd1 ▸ h3, hd1 ▸ h4⟩

/-- C3 (witness): the window part of the contract applied to a concrete
one-row analysis. -/
theorem C3_recommender_contract_witness :
    50 ≤ (321 : ℤ) ∧ (321 : ℤ) ≤ 400 ∧ (200 : ℚ) ≤ 3227 / 10 ∧ (3227 / 10 : ℚ) ≤ 1000 :=
  (C3_recommender_contract [("sqrt_rule", demoStats)]).1 "sqrt_rule" 321 (3227 / 10)
    (by rw [recommend_demoStats]; exact List.mem_singleton.2 rfl)

/-- C4: the driver's fallback branch runs exactly when the Recommender's
filtered list is empty, and then it shows the first three entries (fewer if
the analysis is shorter) of the entire unfiltered analysis, sorted by the
same distance metric `|docsPerTopic − 400|` on the stored value. -/
theorem C4_fallback_contract (analysis : List (String × Stats))
    (recs : List (String × ℤ × ℚ)) :
    ((∃ l, recommendationSection analysis recs = .inr l) ↔ recs = []) ∧
    (recs = [] →
      recommendationSection analysis recs = .inr (fallbackMethods analysis) ∧
      fallbackMethods analysis = (analysis.mergeSort statsDistLe).take 3 ∧
      (fallbackMethods analysis).length = min 3 analysis.length ∧
      (fallbackMethods analysis).Pairwise
        (fun x y => |x.2.docs_per_topic - 400| ≤ |y.2.docs_per_topic - 400|) ∧
      (analysis.mergeSort statsDistLe).Perm analysis) := by
  constructor
  · constructor
    · rintro ⟨l, hl⟩
      by_cases h : recs.isEmpty
      · exact List.isEmpty_iff.1 h
      · unfold recommendationSection at hl
        rw [if_neg h] at hl
        exact absurd hl (by simp)
    · rintro rfl
      exact ⟨fallbackMethods analysis, rfl⟩
  · rintro rfl
    refine ⟨rfl, rfl, ?_, ?_, List.mergeSort_perm analysis statsDistLe⟩
    · rw [fallbackMethods, List.length_take,
        (List.mergeSort_perm analysis statsDistLe).length_eq]
    · have hs := List.sorted_mergeSort statsDistLe_trans statsDistLe_total analysis
      have := List.Pairwise.sublist (List.take_sublist 3 _) hs
      exact this.imp (fun hb => by
        simpa only [statsDistLe, decide_eq_true_eq] using hb)

/-- C4 (witness): the fallback branch on a concrete one-row analysis with
no surviving candidates. -/
theorem C4_fallback_contract_witness :
    recommendationSection [("sqrt_rule", demoStats)] [] =
      .inr (fallbackMethods [("sqrt_rule", demoStats)]) ∧
    fallbackMethods [("sqrt_rule", demoStats)] =
      (([("sqrt_rule", demoStats)]).mergeSort statsDistLe).take 3 ∧
    (fallbackMethods [("sqrt_rule", demoStats)]).length =
      min 3 ([("sqrt_rule", demoStats)] : List (String × Stats)).length ∧
    (fallbackMethods [("sqrt_rule", demoStats)]).Pairwise
      (fun x y => |x.2.docs_per_topic - 400| ≤ |y.2.docs_per_topic - 400|) ∧
    (([("sqrt_rule", demoStats)]).mergeSort statsDistLe).Perm [("sqrt_rule", demoStats)] :=
  (C4_fallback_contract [("sqrt_rule", demoStats)] []).2 rfl

/-- C5: the driver's final recommendation is the topic count of the head of
the filtered list when that list is non-empty; otherwise it is
`ratio_100` when `ratio_100 ≤ 400` and `min(300, balanced)` when
`ratio_100 > 400`. -/
theorem C5_final_recommendation (bank : List (String × ℤ))
    (recs : List (String × ℤ × ℚ)) :
    (∀ r rest, recs = r :: rest → final_recommendation bank recs = some r.2.1) ∧
    (∀ f b, recs = [] → bank.lookup "ratio_100" = some f →
      bank.lookup "balanced" = some b →
      final_recommendation bank recs = some (if f ≤ 400 then f else min 300 b)) := by
  constructor
  · rintro r rest rfl
    rfl
  · rintro f b rfl hf hb
    simp only [final_recommendation, hf, hb]
    by_cases h : f ≤ 400
    · rw [if_neg (not_lt.2 h), if_pos h]
    · rw [if_pos (lt_of_not_le h), if_neg h]

/-- C5 (witness): the empty-recommendations branch on a concrete bank where
`ratio_100 = 1035 > 400` and `balanced = 482`. -/
theorem C5_final_recommendation_witness :
    final_recommendation [("ratio_100", 1035), ("balanced", 482)] [] =
      some (if (1035 : ℤ) ≤ 400 then 1035 else min 300 482) :=
  (C5_final_recommendation [("ratio_100", 1035), ("balanced", 482)] []).2 1035 482 rfl
    (by simp [List.lookup]) (by simp [List.lookup])

/-- C6 (amended): for every input N ≤ 0 the Formula Bank raises an uncaught
math-domain `ValueError` while evaluating its formulas (`math.sqrt` for
N < 0, `math.log10` for N = 0); there is no `InvalidInput` rejection
before formula evaluation. -/
theorem C6_nonpositive_input (n : ℤ) (h : n ≤ 0) :
    calculate_optimal_topics n = .error .valueError := by
  unfold calculate_optimal_topics
  rcases lt_or_eq_of_le h with h1 | h1
  · rw [if_pos h1]
  · rw [if_neg (by omega), if_pos h1]

/-- C6 (witness): the amended statement at the concrete input −7. -/
theorem C6_nonpositive_input_witness :
    calculate_optimal_topics (-7) = .error .valueError :=
  C6_nonpositive_input (-7) (by norm_num)

/-- C6 (counterexample): at input 0 the Formula Bank fails with the
math-domain `ValueError`, not with the `InvalidInput` error the claim
asserts. -/
theorem C6_invalid_input_counterexample :
    calculate_optimal_topics 0 = .error .valueError ∧
    calculate_optimal_topics 0 ≠ .error .invalidInput := by
  have h : calculate_optimal_topics 0 = .error .valueError := by
    unfold calculate_optimal_topics
    norm_num
  exact ⟨h, by rw [h]; simp⟩

/-- C7: for a nonempty corpus the Analyzer raises `ZeroDivisionError`
exactly when some method in the input mapping has topic count 0, and
returns normally whenever all topic counts are nonzero. -/
theorem C7_analyzer_division (N : ℕ) (hN : 1 ≤ N) (tc : List (String × ℤ)) :
    (analyze_topic_distribution N tc = .error .zeroDivisionError ↔
      ∃ p ∈ tc, p.2 = 0) ∧
    ((∀ p ∈ tc, p.2 ≠ 0) → ∃ a, analyze_topic_distribution N tc = .ok a) :=
  ⟨analyze_error_iff hN tc, analyze_ok_of hN tc⟩

/-- C7 (witness): the equivalence and the success branch at N = 1 with the
mappings `[("a", 0)]` and `[("m", 3)]`. -/
theorem C7_analyzer_division_witness :
    (analyze_topic_distribution 1 [("a", 0)] = .error .zeroDivisionError ↔
      ∃ p ∈ [(("a" : String), (0 : ℤ))], p.2 = 0) ∧
    ((∀ p ∈ [(("a" : String), (0 : ℤ))], p.2 ≠ 0) →
      ∃ a, analyze_topic_distribution 1 [("a", 0)] = .ok a) :=
  C7_analyzer_division 1 (by norm_num) [("a", 0)]

/-- C8: for every N ≥ 1 each Formula Bank entry is nonnegative, and the
three `large_corpus_*` keys appear in the bank exactly when N ≥ 100000. -/
theorem C8_bank_entries (N : ℕ) (hN : 1 ≤ N) :
    (∀ p ∈ topicBank N, 0 ≤ p.2) ∧
    (("large_corpus_low" ∈ (topicBank N).map Prod.fst ∧
      "large_corpus_mid" ∈ (topicBank N).map Prod.fst ∧
      "large_corpus_high" ∈ (topicBank N).map Prod.fst) ↔ 100000 ≤ N) := by
  constructor
  · intro p hp
    simp only [topicBank, List.mem_append, List.mem_cons, List.not_mem_nil, or_false,
      List.mem_ite_nil_right] at hp
    rcases hp with (((rfl | rfl | rfl | rfl | rfl | rfl | rfl | rfl | rfl | rfl | rfl | rfl) |
        ⟨-, (rfl | rfl | rfl)⟩) | rfl)
    · exact sqrt_rule_nonneg N
    · exact log_rule_nonneg hN
    · exact ratioRule_nonneg 50 N
    · exact ratioRule_nonneg 100 N
    · exact ratioRule_nonneg 200 N
    · exact ratioRule_nonneg 500 N
    · exact ln_rule_nonneg hN
    · exact power_rule_nonneg N
    · exact griffiths_nonneg 1 hN
    · exact griffiths_nonneg 5 hN
    · exact griffiths_nonneg 10 hN
    · exact blei_conservative_nonneg N
    · exact ratioRule_nonneg 1000 N
    · exact ratioRule_nonneg 750 N
    · exact ratioRule_nonneg 500 N
    · exact balanced_nonneg N
  · constructor
    · rintro ⟨h1, -, -⟩
      by_contra hc
      simp [topicBank, hc] at h1
    · intro hc
      refine ⟨?_, ?_, ?_⟩ <;> simp [topicBank, hc]

/-- C8 (witness): the statement at the concrete corpus size N = 100000
(noting in particular that the large-corpus keys are present there). -/
theorem C8_bank_entries_witness :
    (∀ p ∈ topicBank 100000, 0 ≤ p.2) ∧
    (("large_corpus_low" ∈ (topicBank 100000).map Prod.fst ∧
      "large_corpus_mid" ∈ (topicBank 100000).map Prod.fst ∧
      "large_corpus_high" ∈ (topicBank 100000).map Prod.fst) ↔ 100000 ≤ 100000) :=
  C8_bank_entries 100000 (by norm_num)

/-- C9: for every successful analysis of a nonempty corpus, each method
with a positive topic count satisfies
`|docsPerTopic · topicCount − N| ≤ topicCount / 20`, i.e. the product
recovers N up to the error of rounding `docsPerTopic` to one decimal
place. -/
theorem C9_product_recovers_corpus (N : ℕ) (_hN : 1 ≤ N) (tc : List (String × ℤ))
    (a : List (String × Stats)) (h : analyze_topic_distribution N tc = .ok a)
    (m : String) (s : Stats) (hm : (m, s) ∈ a) (ht : 0 < s.topics) :
    |s.docs_per_topic * (s.topics : ℚ) - (N : ℚ)| ≤ (s.topics : ℚ) / 20 := by
  obtain ⟨t, htc, hok⟩ := analyze_ok_mem h hm
  obtain ⟨ht0, hst, hsd⟩ := analyzeEntry_ok hok
  rw [hst] at ht
  rw [hsd, hst]
  have htQ : ((t : ℚ)) ≠ 0 := Int.cast_ne_zero.2 ht0
  have htpos : (0 : ℚ) < (t : ℚ) := by exact_mod_cast ht
  have hcancel : ((N : ℚ) / (t : ℚ)) * (t : ℚ) = (N : ℚ) := div_mul_cancel₀ _ htQ
  have key : round1 ((N : ℚ) / (t : ℚ)) * (t : ℚ) - (N : ℚ)
      = (round1 ((N : ℚ) / (t : ℚ)) - (N : ℚ) / (t : ℚ)) * (t : ℚ) := by
    rw [sub_mul, hcancel]
  calc |round1 ((N : ℚ) / (t : ℚ)) * (t : ℚ) - (N : ℚ)|
      = |round1 ((N : ℚ) / (t : ℚ)) - (N : ℚ) / (t : ℚ)| * (t : ℚ) := by
        rw [key, abs_mul, abs_of_pos htpos]
    _ ≤ (1 / 20) * (t : ℚ) :=
        mul_le_mul_of_nonneg_right (abs_round1_sub _) (le_of_lt htpos)
    _ = (t : ℚ) / 20 := by ring

/-- C9 (witness): the bound at N = 1000 for the method `m` with 3 topics,
whose stored docs-per-topic is 333.3: `|333.3 · 3 − 1000| = 0.1 ≤ 3/20`. -/
theorem C9_product_recovers_corpus_witness :
    |thirdStats.docs_per_topic * (thirdStats.topics : ℚ) - ((1000 : ℕ) : ℚ)| ≤
      (thirdStats.topics : ℚ) / 20 :=
  C9_product_recovers_corpus 1000 (by norm_num) [("m", 3)] [("m", thirdStats)]
    analyze_1000 "m" thirdStats (List.mem_singleton.2 rfl) (by norm_num [thirdStats])

/-- C10: for every corpus size the `ln_rule` and `griffiths_k1` formulas
coincide (`int(log(N))` versus `int(1 · log(N))`), so the bank always
carries the same topic count under the two method names. -/
theorem C10_ln_rule_duplicates_griffiths_k1 (n : ℕ) :
    ln_rule n = griffiths 1 n ∧
    ("ln_rule", griffiths 1 n) ∈ topicBank n ∧
    ("griffiths_k1", griffiths 1 n) ∈ topicBank n := by
  have h : ln_rule n = griffiths 1 n := by
    unfold ln_rule griffiths
    norm_num
  refine ⟨h, ?_, ?_⟩ <;> simp [topicBank, ← h]

end LuminaCite
